import Mathlib

/-!
Verification of the streaming chat-generation adapter
(`haystack/components/generators/chat/hugging_face_api.py`).

The Python source is shallowly embedded: each embedded definition keeps the
name of the source function it mirrors.  Python `None` becomes `Option.none`,
Python truthiness is made explicit, wall-clock time (`datetime.now()`) is
passed in as an argument, and the network boundary is modelled by taking the
vendor's response (or the list of vendor streaming events) as an input.
Helpers imported from other haystack modules that are not part of the sources
under verification are modelled from the specification and say so in their
doc comments.
-/

namespace HFChat

/-! ## Python JSON values

`json.loads` returns an arbitrary Python value; we model the JSON-expressible
fragment together with Python's truthiness on it (`if arguments:` in the
source).  Integers only: the adapter's behaviour under scrutiny never depends
on float payloads. -/

inductive PyJson where
  | null
  | bool (b : Bool)
  | num (n : Int)
  | str (s : String)
  | arr (items : List PyJson)
  | obj (fields : List (String × PyJson))

/-- Python truthiness of a JSON-shaped value: `None`, `False`, `0`, `""`,
`[]` and `\x7b\x7d` are falsy, everything else truthy. -/
def PyJson.truthy : PyJson → Bool
  | .null => false
  | .bool b => b
  | .num n => decide (n ≠ 0)
  | .str s => decide (s ≠ "")
  | .arr items => !items.isEmpty
  | .obj fields => !fields.isEmpty

/-- Whether a value is a non-empty mapping (the shape the spec claims for
every emitted tool-call argument object). -/
def PyJson.isNonEmptyMapping : PyJson → Bool
  | .obj (_ :: _) => true
  | _ => false

/-! ## A model of Python's `json.loads`

The standard-library decoder, restricted to the JSON subset the claims
exercise: objects, arrays, strings with the single-character escapes,
integer numbers, `true`/`false`/`null`.  Trailing garbage or malformed
input yields `none`, matching `json.JSONDecodeError`. -/

def isJsonWs (c : Char) : Bool :=
  c = ' ' || c = '\t' || c = '\n' || c = '\r'

def skipWs : List Char → List Char
  | c :: cs => if isJsonWs c then skipWs cs else c :: cs
  | [] => []

/-- Longest digit prefix and the remainder. -/
def takeDigits : List Char → (List Char × List Char)
  | c :: cs =>
      if c.isDigit then
        let p := takeDigits cs
        (c :: p.1, p.2)
      else ([], c :: cs)
  | [] => ([], [])

def digitsToNat (ds : List Char) : Nat :=
  ds.foldl (fun acc c => acc * 10 + (c.toNat - 48)) 0

def parseIntLit : List Char → Option (Int × List Char)
  | '-' :: cs =>
      match takeDigits cs with
      | ([], _) => none
      | (ds, rest) => some (-(digitsToNat ds : Int), rest)
  | cs =>
      match takeDigits cs with
      | ([], _) => none
      | (ds, rest) => some ((digitsToNat ds : Int), rest)

/-- Body of a string literal after the opening quote; returns the decoded
characters and the remainder after the closing quote. -/
def parseStrChars : List Char → Option (List Char × List Char)
  | '"' :: cs => some ([], cs)
  | '\\' :: c :: cs =>
      let esc : Option Char :=
        if c = '"' then some '"'
        else if c = '\\' then some '\\'
        else if c = '/' then some '/'
        else if c = 'n' then some '\n'
        else if c = 't' then some '\t'
        else if c = 'r' then some '\r'
        else none
      match esc with
      | some e => (parseStrChars cs).map (fun p => (e :: p.1, p.2))
      | none => none
  | c :: cs =>
      if c = '\\' then none
      else (parseStrChars cs).map (fun p => (c :: p.1, p.2))
  | [] => none

mutual

def parseVal : Nat → List Char → Option (PyJson × List Char)
  | 0, _ => none
  | Nat.succ f, cs =>
      match skipWs cs with
      | 'n' :: 'u' :: 'l' :: 'l' :: rest => some (.null, rest)
      | 't' :: 'r' :: 'u' :: 'e' :: rest => some (.bool true, rest)
      | 'f' :: 'a' :: 'l' :: 's' :: 'e' :: rest => some (.bool false, rest)
      | '"' :: rest => (parseStrChars rest).map (fun p => (.str (String.mk p.1), p.2))
      | '[' :: rest =>
          match skipWs rest with
          | ']' :: rest2 => some (.arr [], rest2)
          | rest2 => (parseItems f rest2).map (fun p => (.arr p.1, p.2))
      | '{' :: rest =>
          match skipWs rest with
          | '}' :: rest2 => some (.obj [], rest2)
          | rest2 => (parseFields f rest2).map (fun p => (.obj p.1, p.2))
      | cs2 => (parseIntLit cs2).map (fun p => (.num p.1, p.2))

def parseItems : Nat → List Char → Option (List PyJson × List Char)
  | 0, _ => none
  | Nat.succ f, cs =>
      match parseVal f cs with
      | none => none
      | some (v, rest) =>
          match skipWs rest with
          | ',' :: rest2 => (parseItems f rest2).map (fun p => (v :: p.1, p.2))
          | ']' :: rest2 => some ([v], rest2)
          | _ => none

def parseFields : Nat → List Char → Option (List (String × PyJson) × List Char)
  | 0, _ => none
  | Nat.succ f, cs =>
      match skipWs cs with
      | '"' :: rest =>
          match parseStrChars rest with
          | none => none
          | some (key, rest2) =>
              match skipWs rest2 with
              | ':' :: rest3 =>
                  match parseVal f rest3 with
                  | none => none
                  | some (v, rest4) =>
                      match skipWs rest4 with
                      | ',' :: rest5 =>
                          (parseFields f rest5).map
                            (fun p => ((String.mk key, v) :: p.1, p.2))
                      | '}' :: rest5 => some ([(String.mk key, v)], rest5)
                      | _ => none
              | _ => none
      | _ => none

end

/-- Model of `json.loads`: decode one JSON document, rejecting trailing
non-whitespace. -/
def json_loads (s : String) : Option PyJson :=
  match parseVal (2 * s.length + 2) s.data with
  | some (v, rest) => if skipWs rest = [] then some v else none
  | none => none

example : json_loads "[1]" = some (.arr [.num 1]) := by rfl
example : json_loads "\x7bbad json" = none := by rfl
example : json_loads "\x7b\"a\": 2\x7d" = some (.obj [("a", .num 2)]) := by rfl
example : json_loads "\x7b\x7d" = some (.obj []) := by rfl

/-! ## Vendor tool-call records and the tool-call normalizer

`ChatCompletionOutputToolCall` exposes `id` and `function` with `name` and
`arguments`; `arguments` is an already-decoded mapping, a JSON-encoded
string, or (as the source's final `else` anticipates) anything else. -/

inductive HFArguments where
  | dict (fields : List (String × PyJson))
  | str (s : String)
  | other

structure HFFunction where
  name : String
  arguments : HFArguments

/-- `ChatCompletionOutputToolCall` from `huggingface_hub`. -/
structure HFToolCallRecord where
  id : String
  function : HFFunction

/-- Haystack's `ToolCall` dataclass.  The source stores whatever value the
decode produced in `arguments`, so the field is a `PyJson`, not a mapping. -/
structure ToolCall where
  tool_name : String
  arguments : PyJson
  id : String

/-- The two `logger.warning` calls of `_convert_hfapi_tool_calls`, with the
identifying context they log. -/
inductive ToolWarning where
  | malformedJson (id name args : String)
  | invalidType (id name : String)
deriving DecidableEq

/-- One iteration of the loop body of `_convert_hfapi_tool_calls`: resolve
`arguments`, then append a `ToolCall` only `if arguments:` (Python
truthiness).  Returns the appended record (if any) and the warnings logged. -/
def _convert_one_hfapi_tool_call (hfapi_tc : HFToolCallRecord) :
    Option ToolCall × List ToolWarning :=
  match hfapi_tc.function.arguments with
  | .dict fields =>
      let v := PyJson.obj fields
      (if v.truthy then some ⟨hfapi_tc.function.name, v, hfapi_tc.id⟩ else none, [])
  | .str s =>
      match json_loads s with
      | some v =>
          (if v.truthy then some ⟨hfapi_tc.function.name, v, hfapi_tc.id⟩ else none, [])
      | none => (none, [.malformedJson hfapi_tc.id hfapi_tc.function.name s])
  | .other => (none, [.invalidType hfapi_tc.id hfapi_tc.function.name])

/-- `_convert_hfapi_tool_calls`: `None` or an empty list yields no calls;
otherwise the loop appends per record, in order.  The result is the emitted
calls paired with the warnings logged. -/
def _convert_hfapi_tool_calls (hfapi_tool_calls : Option (List HFToolCallRecord)) :
    List ToolCall × List ToolWarning :=
  match hfapi_tool_calls with
  | none => ([], [])
  | some l =>
      (l.filterMap (fun tc => (_convert_one_hfapi_tool_call tc).1),
       l.flatMap (fun tc => (_convert_one_hfapi_tool_call tc).2))

example :
    (_convert_hfapi_tool_calls
      (some [⟨"call_1", ⟨"f", .str "\x7b\"a\": 2\x7d"⟩⟩])).1 =
      [⟨"f", .obj [("a", .num 2)], "call_1"⟩] := by rfl

example :
    _convert_hfapi_tool_calls (some [⟨"call_1", ⟨"f", .str "\x7bbad json"⟩⟩]) =
      ([], [.malformedJson "call_1" "f" "\x7bbad json"]) := by rfl

example :
    (_convert_hfapi_tool_calls (some [⟨"call_1", ⟨"f", .str "[1]"⟩⟩])).1 =
      [⟨"f", .arr [.num 1], "call_1"⟩] := by rfl

/-! ## Streaming events, the finish-reason mapper and the chunk translator -/

/-- Haystack's `FinishReason` literal type. -/
inductive FinishReason where
  | stop
  | length
  | tool_calls
  | content_filter
deriving DecidableEq

/-- The delta of a `ChatCompletionStreamOutputChoice`.  The elements of
`tool_calls` are never inspected by the code under verification, only their
presence, so they are modelled as `Unit`. -/
structure StreamDelta where
  content : Option String
  tool_calls : Option (List Unit)
  tool_call_id : Option String

/-- `ChatCompletionStreamOutputChoice` from `huggingface_hub`. -/
structure StreamChoice where
  delta : StreamDelta
  finish_reason : Option String

/-- The usage payload of a vendor response. -/
structure HFUsage where
  prompt_tokens : Nat
  completion_tokens : Nat
deriving DecidableEq

/-- `ChatCompletionStreamOutput` from `huggingface_hub`. -/
structure ChatCompletionStreamOutput where
  choices : List StreamChoice
  model : String
  usage : Option HFUsage

/-- `_map_hf_finish_reason_to_haystack`: `None` stays `None`; tool-call
evidence in the delta forces `tool_calls`; otherwise the dictionary lookup
with `"stop"` as the default. -/
def _map_hf_finish_reason_to_haystack (choice : StreamChoice) : Option FinishReason :=
  match choice.finish_reason with
  | none => none
  | some reason =>
      if choice.delta.tool_calls.isSome || choice.delta.tool_call_id.isSome then
        some .tool_calls
      else if reason = "length" then some .length
      else if reason = "eos_token" then some .stop
      else if reason = "stop_sequence" then some .stop
      else some .stop

/-- The usage dictionary stored in chunk/message metadata
(`\x7b"prompt_tokens": ..., "completion_tokens": ...\x7d`). -/
structure UsageDict where
  prompt_tokens : Nat
  completion_tokens : Nat
deriving DecidableEq

/-- The two metadata dictionary shapes built by
`_convert_chat_completion_stream_output_to_streaming_chunk`: the zero-choices
branch stores `model`/`received_at`/`usage`, the normal branch stores
`model`/`received_at`/`finish_reason` (the raw vendor string). -/
inductive ChunkMeta where
  | usageMeta (model received_at : String) (usage : Option UsageDict)
  | contentMeta (model received_at : String) (finish_reason : Option String)
deriving DecidableEq

/-- Trace attribution handle; opaque to the logic under verification. -/
abbrev ComponentInfo := String

/-- Haystack's `StreamingChunk` dataclass (the fields this adapter uses),
with the dataclass defaults. -/
structure StreamingChunk where
  content : String
  meta : ChunkMeta
  component_info : Option ComponentInfo := none
  index : Option Nat := none
  start : Bool := false
  finish_reason : Option FinishReason := none

/-- Python truthiness of an `Optional[str]` (`None` and `""` are falsy),
used by the source's `... if choice.finish_reason else None`. -/
def pyTruthyOptStr : Option String → Bool
  | none => false
  | some s => !(s == "")

/-- `_convert_chat_completion_stream_output_to_streaming_chunk`.  Wall-clock
time (`datetime.now().isoformat()`) is passed in as `now`. -/
def _convert_chat_completion_stream_output_to_streaming_chunk
    (now : String) (chunk : ChatCompletionStreamOutput)
    (previous_chunks : List StreamingChunk)
    (component_info : Option ComponentInfo := none) : StreamingChunk :=
  match chunk.choices with
  | [] =>
      { content := ""
        meta := .usageMeta chunk.model now
          (chunk.usage.map fun u => ⟨u.prompt_tokens, u.completion_tokens⟩)
        component_info := component_info }
  | choice :: _ =>
      let mapped_finish_reason :=
        if pyTruthyOptStr choice.finish_reason then
          _map_hf_finish_reason_to_haystack choice
        else none
      { content := choice.delta.content.getD ""
        meta := .contentMeta chunk.model now choice.finish_reason
        component_info := component_info
        index := if choice.finish_reason = none then some 0 else none
        start := previous_chunks.isEmpty
        finish_reason := mapped_finish_reason }

/-! ## Messages, the stream accumulator and the run paths -/

/-- The metadata dictionary of a produced `ChatMessage`.  A `none` field
models an absent key; `finish_reason` stores the raw vendor value, which may
itself be `None`. -/
structure MessageMeta where
  model : Option String := none
  finish_reason : Option (Option String) := none
  index : Option Nat := none
  usage : Option UsageDict := none
deriving DecidableEq

/-- Haystack's `ChatMessage` (assistant role), restricted to the fields the
adapter produces. -/
structure ChatMessage where
  text : Option String
  tool_calls : List ToolCall
  meta : MessageMeta

/-- The usage object carried by a chunk's metadata, if any. -/
def chunkUsage (c : StreamingChunk) : Option UsageDict :=
  match c.meta with
  | .usageMeta _ _ u => u
  | .contentMeta _ _ _ => none

/-- Modelled from the spec: `_convert_streaming_chunks_to_chat_message` is
imported from `haystack.components.generators.utils`, which is not among the
sources under verification.  Per §4.4 of the spec, the fold concatenates all
chunk contents in order to form the text, carries no tool calls on the
streaming path, and seeds the usage metadata from the last chunk that carries
a usage object — leaving it unset when none did (the orchestrator then
defaults it to zero counts, §4.5). -/
def _convert_streaming_chunks_to_chat_message (chunks : List StreamingChunk) :
    ChatMessage :=
  { text := some (String.join (chunks.map (fun c => c.content)))
    tool_calls := []
    meta := { usage := (chunks.filterMap chunkUsage).getLast? } }

/-- The chunk-production loop shared by `_run_streaming` and
`_run_streaming_async`: each vendor event is translated with the chunks
already produced this turn as `previous_chunks`, then appended (and handed to
the per-chunk callback, whose invocations are exactly the produced chunks in
order). -/
def streamLoop (now : String) (component_info : Option ComponentInfo)
    (acc : List StreamingChunk) :
    List ChatCompletionStreamOutput → List StreamingChunk
  | [] => acc
  | e :: es =>
      streamLoop now component_info
        (acc ++ [_convert_chat_completion_stream_output_to_streaming_chunk
          now e acc component_info]) es

/-- The shape of the value returned by `run`/`run_async`:
`\x7b"replies": [...]\x7d`. -/
structure RunResult where
  replies : List ChatMessage

/-- `HuggingFaceAPIChatGenerator._run_streaming`, with the vendor's event
stream passed in as `events` and wall-clock time as `now`. -/
def _run_streaming (now : String) (component_info : Option ComponentInfo)
    (events : List ChatCompletionStreamOutput) : RunResult :=
  let streaming_chunks := streamLoop now component_info [] events
  let message := _convert_streaming_chunks_to_chat_message streaming_chunks
  let message :=
    if message.meta.usage = none then
      { message with meta := { message.meta with usage := some ⟨0, 0⟩ } }
    else message
  ⟨[message]⟩

/-- `HuggingFaceAPIChatGenerator._run_streaming_async`: the same loop and
fold, awaiting the event source and callback. -/
def _run_streaming_async (now : String) (component_info : Option ComponentInfo)
    (events : List ChatCompletionStreamOutput) : RunResult :=
  let streaming_chunks := streamLoop now component_info [] events
  let message := _convert_streaming_chunks_to_chat_message streaming_chunks
  let message :=
    if message.meta.usage = none then
      { message with meta := { message.meta with usage := some ⟨0, 0⟩ } }
    else message
  ⟨[message]⟩

/-- The message held by a non-streaming `ChatCompletionOutput` choice. -/
structure OutputMessage where
  content : Option String
  tool_calls : Option (List HFToolCallRecord)

/-- A non-streaming `ChatCompletionOutput` choice. -/
structure OutputChoice where
  message : OutputMessage
  finish_reason : Option String
  index : Nat

/-- `ChatCompletionOutput` from `huggingface_hub`; `choices` may be `None`
or a list. -/
structure ChatCompletionOutput where
  choices : Option (List OutputChoice)
  usage : Option HFUsage

/-- `HuggingFaceAPIChatGenerator._run_non_streaming`, with the vendor's
response passed in as `api_chat_output` and the client's model id as
`model`. -/
def _run_non_streaming (model : String) (api_chat_output : ChatCompletionOutput) :
    RunResult :=
  match api_chat_output.choices with
  | none => ⟨[]⟩
  | some [] => ⟨[]⟩
  | some (choice :: _) =>
      let text := choice.message.content
      let tool_calls := (_convert_hfapi_tool_calls choice.message.tool_calls).1
      let usage : UsageDict :=
        match api_chat_output.usage with
        | some u => ⟨u.prompt_tokens, u.completion_tokens⟩
        | none => ⟨0, 0⟩
      ⟨[{ text := text
          tool_calls := tool_calls
          meta := { model := some model
                    finish_reason := some choice.finish_reason
                    index := some choice.index
                    usage := some usage } }]⟩

/-- `HuggingFaceAPIChatGenerator._run_non_streaming_async`: identical logic
over the awaited client. -/
def _run_non_streaming_async (model : String)
    (api_chat_output : ChatCompletionOutput) : RunResult :=
  match api_chat_output.choices with
  | none => ⟨[]⟩
  | some [] => ⟨[]⟩
  | some (choice :: _) =>
      let text := choice.message.content
      let tool_calls := (_convert_hfapi_tool_calls choice.message.tool_calls).1
      let usage : UsageDict :=
        match api_chat_output.usage with
        | some u => ⟨u.prompt_tokens, u.completion_tokens⟩
        | none => ⟨0, 0⟩
      ⟨[{ text := text
          tool_calls := tool_calls
          meta := { model := some model
                    finish_reason := some choice.finish_reason
                    index := some choice.index
                    usage := some usage } }]⟩

/-! ## Request validation (`__init__`, `run`, `run_async`) -/

/-- A tool, as far as validation is concerned: only its name is examined. -/
structure Tool where
  name : String
deriving DecidableEq

/-- A streaming callback; validation only looks at whether it is an async
callable. -/
structure Callback where
  is_async : Bool
deriving DecidableEq

def hasDuplicate : List String → Bool
  | [] => false
  | n :: ns => ns.contains n || hasDuplicate ns

/-- Modelled from the spec: `_check_duplicate_tool_names` is imported from
`haystack.tools`, which is not among the sources under verification; per the
spec, duplicate tool names are rejected with a configuration error
(ValueError).  Returns `true` when the check raises. -/
def _check_duplicate_tool_names (tools : List Tool) : Bool :=
  hasDuplicate (tools.map (fun t => t.name))

/-- The `ValueError`s the entry points can raise during validation. -/
inductive RunError where
  | toolsWithStreaming
  | duplicateToolNames
  | callbackModeMismatch
deriving DecidableEq

/-- Modelled from the spec: `select_streaming_callback` is imported from
`haystack.dataclasses`, which is not among the sources under verification;
per §4.5(c) of the spec, the effective callback is resolved by override
precedence — call-time argument over instance default — and must match the
call's sync/async mode (a mismatch is a configuration error). -/
def select_streaming_callback (init_callback runtime_callback : Option Callback)
    (requires_async : Bool) : Except RunError (Option Callback) :=
  match runtime_callback.orElse (fun _ => init_callback) with
  | some cb =>
      if cb.is_async = requires_async then .ok (some cb)
      else .error .callbackModeMismatch
  | none => .ok none

/-- How a `run`/`run_async` call proceeds after validation. -/
inductive RunDispatch where
  | streaming (cb : Callback)
  | nonStreaming (tools : List Tool)
deriving DecidableEq

/-- `tools = tools or self.tools`: the call-time list wins when truthy
(present and non-empty). -/
def effectiveTools (self_tools : List Tool) (call_tools : Option (List Tool)) :
    List Tool :=
  match call_tools with
  | some ts => if ts.isEmpty then self_tools else ts
  | none => self_tools

/-- The validation-and-dispatch prefix of `run` (and, with
`requires_async := true`, of `run_async`): resolve the effective tools, check
the tools-plus-streaming conflict against `self.streaming_callback`, check
duplicate tool names, resolve the effective callback, then dispatch to the
streaming or non-streaming path (the first network request happens only
inside the dispatched path). -/
def runValidation (self_tools : List Tool) (self_streaming_callback : Option Callback)
    (call_tools : Option (List Tool)) (call_streaming_callback : Option Callback)
    (requires_async : Bool) : Except RunError RunDispatch :=
  let tools := effectiveTools self_tools call_tools
  if !tools.isEmpty && self_streaming_callback.isSome then
    .error .toolsWithStreaming
  else if _check_duplicate_tool_names tools then
    .error .duplicateToolNames
  else
    match select_streaming_callback self_streaming_callback call_streaming_callback
        requires_async with
    | .error e => .error e
    | .ok (some cb) => .ok (.streaming cb)
    | .ok none => .ok (.nonStreaming tools)

/-- The validation sequence of `__init__` (lines 332–334): the
tools-plus-streaming conflict is checked, then duplicate tool names; `some e`
is the first ValueError raised, `none` means construction proceeds. -/
def initValidation (tools : List Tool) (streaming_callback : Option Callback) :
    Option RunError :=
  if !tools.isEmpty && streaming_callback.isSome then some .toolsWithStreaming
  else if _check_duplicate_tool_names tools then some .duplicateToolNames
  else none

/-! ## Generation-kwargs handling (`__init__` lines 336–345, `run` line 415) -/

/-- A value stored in `generation_kwargs`.  The claims only discriminate
numbers (`max_tokens`) and string lists (`stop`); anything else is `other`. -/
inductive GenVal where
  | nat (n : Nat)
  | strList (ws : List String)
  | other (tag : String)
deriving DecidableEq

/-- A Python dict with string keys, as an insertion-ordered association
list. -/
abbrev GenDict := List (String × GenVal)

/-- `d.get(k)`: the value at the first (for a dict: only) occurrence of the
key. -/
def dictGet : GenDict → String → Option GenVal
  | [], _ => none
  | p :: ps, k => if p.1 = k then some p.2 else dictGet ps k

/-- `d[k] = v`: replace in place when the key exists, else append. -/
def dictSet : GenDict → String → GenVal → GenDict
  | [], k, v => [(k, v)]
  | p :: ps, k, v => if p.1 = k then (k, v) :: ps else p :: dictSet ps k v

/-- `d.setdefault(k, v)`. -/
def dictSetdefault (d : GenDict) (k : String) (v : GenVal) : GenDict :=
  match dictGet d k with
  | some _ => d
  | none => d ++ [(k, v)]

/-- The generation-kwargs setup in `__init__`: copy the caller's mapping (or
start empty), set `stop` to the existing list extended with `stop_words`, and
`setdefault` `max_tokens` to 512.  The source assumes an existing `stop`
value is a list — any other value would fail at `.extend`, a case outside
the claims. -/
def initGenerationKwargs (generation_kwargs : Option GenDict)
    (stop_words : Option (List String)) : GenDict :=
  let gk := generation_kwargs.getD []
  let stopBase : List String :=
    match dictGet gk "stop" with
    | some (.strList ws) => ws
    | _ => []
  let gk := dictSet gk "stop" (.strList (stopBase ++ stop_words.getD []))
  dictSetdefault gk "max_tokens" (.nat 512)

/-- The per-call merge in `run`/`run_async`:
`\x7b**self.generation_kwargs, **(generation_kwargs or \x7b\x7d)\x7d` — the
override wins key-by-key, its fresh keys are appended in order. -/
def mergeGenerationKwargs (base : GenDict) (override : Option GenDict) : GenDict :=
  let ov := override.getD []
  base.map (fun p =>
      match dictGet ov p.1 with
      | some v => (p.1, v)
      | none => p) ++
    ov.filter (fun p => (dictGet base p.1).isNone)

example :
    initGenerationKwargs (some [("temperature", .other "t")]) (some ["stop1"]) =
      [("temperature", .other "t"), ("stop", .strList ["stop1"]),
       ("max_tokens", .nat 512)] := by rfl

example :
    dictGet (mergeGenerationKwargs
      (initGenerationKwargs none none) (some [("max_tokens", .nat 20)]))
      "max_tokens" = some (.nat 20) := by rfl

/-! ## Helper lemmas -/

/-- A record appended by the normalizer's loop keeps the vendor's tool name
and identifier, and its arguments passed the `if arguments:` truthiness
check. -/
theorem convert_one_emitted (tc : HFToolCallRecord) (c : ToolCall)
    (h : (_convert_one_hfapi_tool_call tc).1 = some c) :
    c.tool_name = tc.function.name ∧ c.id = tc.id ∧ c.arguments.truthy = true := by
  rcases tc with ⟨id, name, args⟩
  cases args with
  | dict fields =>
      simp only [_convert_one_hfapi_tool_call] at h
      by_cases ht : (PyJson.obj fields).truthy = true
      · rw [if_pos ht] at h
        injection h with h2
        subst h2
        exact ⟨rfl, rfl, ht⟩
      · rw [if_neg ht] at h
        cases h
  | str s =>
      simp only [_convert_one_hfapi_tool_call] at h
      cases hj : json_loads s with
      | none => rw [hj] at h; cases h
      | some v =>
          rw [hj] at h
          dsimp only at h
          by_cases ht : v.truthy = true
          · rw [if_pos ht] at h
            injection h with h2
            subst h2
            exact ⟨rfl, rfl, ht⟩
          · rw [if_neg ht] at h
            cases h
  | other =>
      simp only [_convert_one_hfapi_tool_call] at h
      cases h

/-- Projecting each emitted record to its (name, id) pair yields a
subsequence of the input projected the same way. -/
theorem convert_proj_sublist :
    ∀ l : List HFToolCallRecord,
      ((l.filterMap fun tc => (_convert_one_hfapi_tool_call tc).1).map
          fun c => (c.tool_name, c.id)).Sublist
        (l.map fun tc => (tc.function.name, tc.id))
  | [] => List.Sublist.slnil
  | tc :: rest => by
      cases hc : (_convert_one_hfapi_tool_call tc).1 with
      | none =>
          simp only [List.filterMap_cons, hc, List.map_cons]
          exact (convert_proj_sublist rest).cons _
      | some c =>
          simp only [List.filterMap_cons, hc, List.map_cons]
          obtain ⟨hn, hi, -⟩ := convert_one_emitted tc c hc
          rw [hn, hi]
          exact (convert_proj_sublist rest).cons₂ _

/-- Looking a key up in a concatenation: the left dictionary wins. -/
theorem dictGet_append (l₁ l₂ : GenDict) (k : String) :
    dictGet (l₁ ++ l₂) k =
      match dictGet l₁ k with
      | some v => some v
      | none => dictGet l₂ k := by
  induction l₁ with
  | nil => rfl
  | cons p ps ih =>
      by_cases h : p.1 = k
      · simp [dictGet, h]
      · simp [dictGet, h, ih]

/-- Assigning one key leaves every other key's lookup unchanged. -/
theorem dictGet_dictSet_ne (d : GenDict) (k k' : String) (v : GenVal)
    (h : k ≠ k') : dictGet (dictSet d k v) k' = dictGet d k' := by
  induction d with
  | nil => simp [dictSet, dictGet, h]
  | cons p ps ih =>
      by_cases hp : p.1 = k
      · rw [dictSet, if_pos hp, dictGet, if_neg h, dictGet, hp, if_neg h]
      · rw [dictSet, if_neg hp]
        by_cases hp' : p.1 = k'
        · rw [dictGet, if_pos hp', dictGet, if_pos hp']
        · rw [dictGet, if_neg hp', dictGet, if_neg hp', ih]

/-- `setdefault` on an absent key makes the default the key's value. -/
theorem dictGet_dictSetdefault_of_none (d : GenDict) (k : String) (v : GenVal)
    (h : dictGet d k = none) : dictGet (dictSetdefault d k v) k = some v := by
  unfold dictSetdefault
  rw [h, dictGet_append, h]
  simp [dictGet]

/-- Looking up a key in the overridden copy of `base` built by the merge:
the override's value wins at keys `base` holds. -/
theorem dictGet_mapped_override (ov : GenDict) :
    ∀ (base : GenDict) (k : String),
      dictGet (base.map fun p =>
        match dictGet ov p.1 with
        | some v => (p.1, v)
        | none => p) k =
        match dictGet base k with
        | none => none
        | some w =>
            match dictGet ov k with
            | some v => some v
            | none => some w := by
  intro base
  induction base with
  | nil => intro k; rfl
  | cons p ps ih =>
      intro k
      by_cases hp : p.1 = k
      · subst hp
        cases hov : dictGet ov p.1 <;>
          simp [dictGet, hov]
      · cases hov : dictGet ov p.1 <;>
          simp [dictGet, hov, hp, ih]

/-- Filtering the override down to the keys `base` lacks does not change the
lookup of a key `base` lacks. -/
theorem dictGet_filter_isNone (base : GenDict) :
    ∀ (ov : GenDict) (k : String), dictGet base k = none →
      dictGet (ov.filter fun p => (dictGet base p.1).isNone) k = dictGet ov k := by
  intro ov
  induction ov with
  | nil => intro k _; rfl
  | cons p ps ih =>
      intro k hb
      by_cases hp : p.1 = k
      · subst hp
        simp [List.filter_cons, hb, dictGet]
      · cases hq : (dictGet base p.1).isNone <;>
          simp [List.filter_cons, hq, dictGet, hp, ih _ hb]

/-- The per-call merge looks up like Python's
`\x7b**base, **override\x7d`: the override wins key-by-key, else `base`. -/
theorem dictGet_merge (base : GenDict) (override : Option GenDict) (k : String) :
    dictGet (mergeGenerationKwargs base override) k =
      match dictGet (override.getD []) k with
      | some v => some v
      | none => dictGet base k := by
  unfold mergeGenerationKwargs
  rw [dictGet_append, dictGet_mapped_override]
  cases hb : dictGet base k with
  | some w => cases hov : dictGet (override.getD []) k <;> simp [hov]
  | none =>
      rw [dictGet_filter_isNone base _ k hb]
      cases hov : dictGet (override.getD []) k <;> simp [hov, hb]

/-- A list whose elements all map to `none` filter-maps to the empty list. -/
theorem filterMap_of_all_isNone {α β : Type} (f : α → Option β) :
    ∀ l : List α, (l.all fun a => (f a).isNone) = true → l.filterMap f = []
  | [], _ => rfl
  | a :: as, h => by
      rw [List.all_cons, Bool.and_eq_true] at h
      rw [List.filterMap_cons, Option.isNone_iff_eq_none.mp h.1]
      exact filterMap_of_all_isNone f as h.2

/-! ## Claims -/

/-- C2, counterexample: a vendor record whose string arguments decode to the
non-empty JSON array `[1]` — not a mapping — is emitted by
`_convert_hfapi_tool_calls` (Python's `if arguments:` only tests truthiness,
not the type), so an emitted record's arguments need not be a non-empty
mapping. -/
theorem nonmapping_tool_call_arguments_emitted :
    (_convert_hfapi_tool_calls (some [⟨"call_1", ⟨"f", .str "[1]"⟩⟩])).1 =
      [⟨"f", .arr [.num 1], "call_1"⟩] ∧
    PyJson.isNonEmptyMapping (.arr [.num 1]) = false :=
  ⟨rfl, rfl⟩

/-- C2 (amended): every `ToolCall` emitted by `_convert_hfapi_tool_calls`
has arguments that were successfully obtained and are truthy (in particular
an already-decoded mapping is emitted only when non-empty); a record whose
arguments are falsy — an empty mapping among them — or unparseable is never
emitted.  The arguments need not be a mapping: a string payload whose JSON
decode is any truthy value is emitted as-is. -/
theorem emitted_tool_call_arguments_truthy
    (hfapi_tool_calls : Option (List HFToolCallRecord)) :
    ((_convert_hfapi_tool_calls hfapi_tool_calls).1.all
      fun tc => tc.arguments.truthy) = true := by
  cases hfapi_tool_calls with
  | none => rfl
  | some l =>
      rw [List.all_eq_true]
      intro c hc
      simp only [_convert_hfapi_tool_calls] at hc
      obtain ⟨tc, -, htc⟩ := List.mem_filterMap.mp hc
      exact (convert_one_emitted tc c htc).2.2

/-- C5: the tool-call normalizer is a total, order-preserving best-effort
filter: it returns at most one output record per input record, the emitted
(name, id) pairs form a subsequence of the input's, a `None` payload yields
nothing, a record with arguments `"\x7bbad json"` contributes zero ToolCalls
and exactly one warning naming the tool id and name, and a record whose
arguments are neither a mapping nor a string is skipped with one warning.
Totality (never raising) holds by construction of the embedding, which
mirrors the source's `try/except` with an `Option`. -/
theorem tool_call_normalizer_total_filter :
    (∀ l : List HFToolCallRecord,
      (_convert_hfapi_tool_calls (some l)).1.length ≤ l.length) ∧
    (∀ l : List HFToolCallRecord,
      ((_convert_hfapi_tool_calls (some l)).1.map fun c => (c.tool_name, c.id)).Sublist
        (l.map fun tc => (tc.function.name, tc.id))) ∧
    _convert_hfapi_tool_calls none = ([], []) ∧
    _convert_hfapi_tool_calls
        (some [⟨"call_1", ⟨"get_weather", .str "\x7bbad json"⟩⟩]) =
      ([], [.malformedJson "call_1" "get_weather" "\x7bbad json"]) ∧
    _convert_hfapi_tool_calls (some [⟨"call_2", ⟨"get_weather", .other⟩⟩]) =
      ([], [.invalidType "call_2" "get_weather"]) := by
  refine ⟨?_, ?_, rfl, rfl, rfl⟩
  · intro l
    simpa [_convert_hfapi_tool_calls] using
      List.length_filterMap_le (fun tc => (_convert_one_hfapi_tool_call tc).1) l
  · intro l
    simpa [_convert_hfapi_tool_calls] using convert_proj_sublist l

/-- C9: a vendor response whose choices list is absent or empty makes both
non-streaming paths return `\x7b"replies": []\x7d`, with no error raised (the
embedding is a total function). -/
theorem empty_choices_yield_empty_replies (model : String)
    (api_chat_output : ChatCompletionOutput)
    (h : api_chat_output.choices = none ∨ api_chat_output.choices = some []) :
    (_run_non_streaming model api_chat_output).replies = [] ∧
    (_run_non_streaming_async model api_chat_output).replies = [] := by
  rcases h with h | h <;>
    simp [_run_non_streaming, _run_non_streaming_async, h]

/-- C9, witness: a concrete response with `choices = []`. -/
theorem empty_choices_yield_empty_replies_witness :
    (⟨some [], none⟩ : ChatCompletionOutput).choices = some [] ∧
    (_run_non_streaming "m" ⟨some [], none⟩).replies = [] ∧
    (_run_non_streaming_async "m" ⟨some [], none⟩).replies = [] :=
  ⟨rfl,
   (empty_choices_yield_empty_replies "m" ⟨some [], none⟩ (Or.inr rfl)).1,
   (empty_choices_yield_empty_replies "m" ⟨some [], none⟩ (Or.inr rfl)).2⟩

/-- C8: a vendor streaming event carrying zero choices is translated, without
raising, to a chunk with empty content whose metadata holds the model id, the
receipt timestamp, and a usage field that is the vendor's token counts when
the event carries usage and `None` when it does not. -/
theorem usage_only_event_chunk (now : String) (chunk : ChatCompletionStreamOutput)
    (previous_chunks : List StreamingChunk) (component_info : Option ComponentInfo)
    (h : chunk.choices = []) :
    (_convert_chat_completion_stream_output_to_streaming_chunk now chunk
        previous_chunks component_info).content = "" ∧
    (chunk.usage = none →
      (_convert_chat_completion_stream_output_to_streaming_chunk now chunk
        previous_chunks component_info).meta = .usageMeta chunk.model now none) ∧
    (∀ u, chunk.usage = some u →
      (_convert_chat_completion_stream_output_to_streaming_chunk now chunk
        previous_chunks component_info).meta =
        .usageMeta chunk.model now (some ⟨u.prompt_tokens, u.completion_tokens⟩)) := by
  rcases chunk with ⟨chs, m, us⟩
  dsimp only at h
  subst h
  refine ⟨rfl, ?_, ?_⟩
  · intro hu
    dsimp only at hu
    subst hu
    rfl
  · intro u hu
    dsimp only at hu
    subst hu
    rfl

/-- C8, witness: a concrete zero-choices event carrying usage. -/
theorem usage_only_event_chunk_witness :
    (⟨[], "model-x", some ⟨3, 5⟩⟩ : ChatCompletionStreamOutput).choices = [] ∧
    (_convert_chat_completion_stream_output_to_streaming_chunk "t0"
      ⟨[], "model-x", some ⟨3, 5⟩⟩ [] none).content = "" ∧
    (_convert_chat_completion_stream_output_to_streaming_chunk "t0"
      ⟨[], "model-x", some ⟨3, 5⟩⟩ [] none).meta =
      .usageMeta "model-x" "t0" (some ⟨3, 5⟩) :=
  ⟨rfl,
   (usage_only_event_chunk "t0" ⟨[], "model-x", some ⟨3, 5⟩⟩ [] none rfl).1,
   (usage_only_event_chunk "t0" ⟨[], "model-x", some ⟨3, 5⟩⟩ [] none rfl).2.2
     ⟨3, 5⟩ rfl⟩

/-- C3: the finish-reason mapper is total (it is a function and never
raises): an absent vendor reason maps to absent; when the choice carries
tool-call evidence (tool-call fragments or a tool-call identifier in the
delta) any present reason maps to `tool_calls`, overriding the vendor's
literal signal; otherwise `length` maps to `length`, `eos_token` and
`stop_sequence` map to `stop`, and so does every other vendor string (the
final conjunct covers every reason other than `length`, recognized or
not). -/
theorem finish_reason_mapper_policy (choice : StreamChoice) :
    (choice.finish_reason = none →
      _map_hf_finish_reason_to_haystack choice = none) ∧
    (choice.finish_reason ≠ none →
      (choice.delta.tool_calls.isSome || choice.delta.tool_call_id.isSome) = true →
      _map_hf_finish_reason_to_haystack choice = some .tool_calls) ∧
    ((choice.delta.tool_calls.isSome || choice.delta.tool_call_id.isSome) = false →
      (choice.finish_reason = some "length" →
        _map_hf_finish_reason_to_haystack choice = some .length) ∧
      (choice.finish_reason = some "eos_token" →
        _map_hf_finish_reason_to_haystack choice = some .stop) ∧
      (choice.finish_reason = some "stop_sequence" →
        _map_hf_finish_reason_to_haystack choice = some .stop) ∧
      (∀ r, choice.finish_reason = some r → r ≠ "length" →
        _map_hf_finish_reason_to_haystack choice = some .stop)) := by
  refine ⟨?_, ?_, ?_⟩
  · intro h
    simp [_map_hf_finish_reason_to_haystack, h]
  · intro h hev
    cases hfr : choice.finish_reason with
    | none => exact absurd hfr h
    | some r => simp [_map_hf_finish_reason_to_haystack, hfr, hev]
  · intro hev
    refine ⟨?_, ?_, ?_, ?_⟩
    · intro h
      simp [_map_hf_finish_reason_to_haystack, h, hev]
    · intro h
      simp [_map_hf_finish_reason_to_haystack, h, hev]
    · intro h
      simp [_map_hf_finish_reason_to_haystack, h, hev]
    · intro r h hr
      simp only [_map_hf_finish_reason_to_haystack, h, hev, Bool.false_eq_true,
        if_false]
      rw [if_neg hr]
      split <;> [rfl; skip]
      split <;> rfl

/-- C3, witness: a finish event with vendor reason `eos_token` and no
tool-call evidence maps to `stop`; the same reason with tool-call evidence in
the delta maps to `tool_calls`; an absent reason maps to absent. -/
theorem finish_reason_mapper_policy_witness :
    _map_hf_finish_reason_to_haystack ⟨⟨none, none, none⟩, some "eos_token"⟩ =
      some .stop ∧
    _map_hf_finish_reason_to_haystack ⟨⟨none, some [], none⟩, some "eos_token"⟩ =
      some .tool_calls ∧
    _map_hf_finish_reason_to_haystack ⟨⟨none, none, none⟩, none⟩ = none :=
  ⟨((finish_reason_mapper_policy ⟨⟨none, none, none⟩, some "eos_token"⟩).2.2
      rfl).2.1 rfl,
   (finish_reason_mapper_policy ⟨⟨none, some [], none⟩, some "eos_token"⟩).2.1
     (by simp) rfl,
   (finish_reason_mapper_policy ⟨⟨none, none, none⟩, none⟩).1 rfl⟩

/-- C7: for a vendor streaming event with at least one choice, the translated
chunk has `start = true` exactly when no chunks were previously produced this
turn, and `index = some 0` exactly when the first choice's finish reason is
absent — in particular the terminal chunk (present finish reason) carries no
index. -/
theorem stream_chunk_start_and_index (now : String)
    (chunk : ChatCompletionStreamOutput) (previous_chunks : List StreamingChunk)
    (component_info : Option ComponentInfo) (choice : StreamChoice)
    (rest : List StreamChoice) (h : chunk.choices = choice :: rest) :
    ((_convert_chat_completion_stream_output_to_streaming_chunk now chunk
        previous_chunks component_info).start = true ↔ previous_chunks = []) ∧
    ((_convert_chat_completion_stream_output_to_streaming_chunk now chunk
        previous_chunks component_info).index = some 0 ↔
      choice.finish_reason = none) ∧
    (choice.finish_reason ≠ none →
      (_convert_chat_completion_stream_output_to_streaming_chunk now chunk
        previous_chunks component_info).index = none) := by
  rcases chunk with ⟨chs, m, us⟩
  dsimp only at h
  subst h
  refine ⟨?_, ?_, ?_⟩
  · simp [_convert_chat_completion_stream_output_to_streaming_chunk,
      List.isEmpty_iff]
  · by_cases hfr : choice.finish_reason = none <;>
      simp [_convert_chat_completion_stream_output_to_streaming_chunk, hfr]
  · intro hfr
    simp [_convert_chat_completion_stream_output_to_streaming_chunk, hfr]

/-- C7, witness: the first chunk of a turn (no previous chunks, no finish
reason) has `start = true` and `index = some 0`; a terminal chunk translated
after one produced chunk has `start = false` and `index = none`. -/
theorem stream_chunk_start_and_index_witness :
    (_convert_chat_completion_stream_output_to_streaming_chunk "t0"
      ⟨[⟨⟨some "hi", none, none⟩, none⟩], "m", none⟩ [] none).start = true ∧
    (_convert_chat_completion_stream_output_to_streaming_chunk "t0"
      ⟨[⟨⟨some "hi", none, none⟩, none⟩], "m", none⟩ [] none).index = some 0 ∧
    (_convert_chat_completion_stream_output_to_streaming_chunk "t1"
      ⟨[⟨⟨none, none, none⟩, some "eos_token"⟩], "m", none⟩
      [_convert_chat_completion_stream_output_to_streaming_chunk "t0"
        ⟨[⟨⟨some "hi", none, none⟩, none⟩], "m", none⟩ [] none]
      none).start = false ∧
    (_convert_chat_completion_stream_output_to_streaming_chunk "t1"
      ⟨[⟨⟨none, none, none⟩, some "eos_token"⟩], "m", none⟩
      [_convert_chat_completion_stream_output_to_streaming_chunk "t0"
        ⟨[⟨⟨some "hi", none, none⟩, none⟩], "m", none⟩ [] none]
      none).index = none :=
  ⟨(stream_chunk_start_and_index "t0" ⟨[⟨⟨some "hi", none, none⟩, none⟩], "m", none⟩
      [] none ⟨⟨some "hi", none, none⟩, none⟩ [] rfl).1.mpr rfl,
   (stream_chunk_start_and_index "t0" ⟨[⟨⟨some "hi", none, none⟩, none⟩], "m", none⟩
      [] none ⟨⟨some "hi", none, none⟩, none⟩ [] rfl).2.1.mpr rfl,
   by
    have := (stream_chunk_start_and_index "t1"
      ⟨[⟨⟨none, none, none⟩, some "eos_token"⟩], "m", none⟩
      [_convert_chat_completion_stream_output_to_streaming_chunk "t0"
        ⟨[⟨⟨some "hi", none, none⟩, none⟩], "m", none⟩ [] none]
      none ⟨⟨none, none, none⟩, some "eos_token"⟩ [] rfl).1
    simpa using fun hc => List.cons_ne_nil _ _ (this.mp hc),
   (stream_chunk_start_and_index "t1"
      ⟨[⟨⟨none, none, none⟩, some "eos_token"⟩], "m", none⟩
      [_convert_chat_completion_stream_output_to_streaming_chunk "t0"
        ⟨[⟨⟨some "hi", none, none⟩, none⟩], "m", none⟩ [] none]
      none ⟨⟨none, none, none⟩, some "eos_token"⟩ [] rfl).2.2 (by simp)⟩

/-- C1, counterexample: a call that supplies a non-empty tool list and a
streaming callback at call time, on an instance with neither, passes
validation and dispatches to the streaming path — no ValueError is raised,
although the effective tools and the effective callback (after
call-time-over-instance resolution) are both present.  The conflict check at
the top of `run`/`run_async` reads `self.streaming_callback`, not the
resolved callback. -/
theorem calltime_callback_with_tools_not_rejected :
    effectiveTools [] (some [⟨"get_weather"⟩]) = [⟨"get_weather"⟩] ∧
    (select_streaming_callback none (some ⟨false⟩) false =
      .ok (some ⟨false⟩)) ∧
    runValidation [] none (some [⟨"get_weather"⟩]) (some ⟨false⟩) false =
      .ok (.streaming ⟨false⟩) :=
  ⟨rfl, rfl, rfl⟩

/-- C1 (amended): the tools-plus-streaming ValueError is raised before any
network request exactly on the condition the code tests: the effective tool
list (call-time over instance) is non-empty and the **instance** streaming
callback is set.  A callback supplied only at call time does not trigger the
error; such a call proceeds on the streaming path and the tools are silently
ignored.  This covers `run` and `run_async` alike (`requires_async` is the
only difference between their validation prefixes). -/
theorem tools_conflict_requires_instance_callback
    (self_tools : List Tool) (self_streaming_callback : Option Callback)
    (call_tools : Option (List Tool)) (call_streaming_callback : Option Callback)
    (requires_async : Bool)
    (htools : effectiveTools self_tools call_tools ≠ [])
    (hcb : self_streaming_callback.isSome = true) :
    runValidation self_tools self_streaming_callback call_tools
      call_streaming_callback requires_async = .error .toolsWithStreaming := by
  unfold runValidation
  rw [if_pos]
  rw [Bool.and_eq_true, Bool.not_eq_true', List.isEmpty_eq_false]
  exact ⟨htools, hcb⟩

/-- C1, witness: instance callback plus call-time tools raises the conflict
error. -/
theorem tools_conflict_requires_instance_callback_witness :
    effectiveTools [] (some [⟨"get_weather"⟩]) ≠ [] ∧
    (some (⟨false⟩ : Callback)).isSome = true ∧
    runValidation [] (some ⟨false⟩) (some [⟨"get_weather"⟩]) none false =
      .error .toolsWithStreaming :=
  ⟨by decide, rfl,
   tools_conflict_requires_instance_callback [] (some ⟨false⟩)
     (some [⟨"get_weather"⟩]) none false (by decide) rfl⟩

/-- C4, counterexample: an input carrying both duplicate tool names and a
streaming callback is rejected with the tools-plus-streaming error, not the
duplicate-tool-name error — the conflict check runs first, both in
`__init__` and in `run`/`run_async`. -/
theorem conflict_error_precedes_duplicate_error :
    _check_duplicate_tool_names [⟨"a"⟩, ⟨"a"⟩] = true ∧
    initValidation [⟨"a"⟩, ⟨"a"⟩] (some ⟨false⟩) = some .toolsWithStreaming ∧
    runValidation [] (some ⟨false⟩) (some [⟨"a"⟩, ⟨"a"⟩]) none false =
      .error .toolsWithStreaming ∧
    RunError.toolsWithStreaming ≠ RunError.duplicateToolNames :=
  ⟨rfl, rfl, rfl, by decide⟩

/-- C4 (amended): request validation checks the tools-plus-callback conflict
first and duplicate tool names second, in `__init__` and in `run`/`run_async`
alike; consequently, for every input carrying both duplicate tool names and
a (conflict-triggering) streaming callback, the error raised is the
tools-plus-streaming error, and the duplicate-tool-name error is raised only
when the conflict does not fire. -/
theorem validation_conflict_checked_first
    (self_tools : List Tool) (self_streaming_callback : Option Callback)
    (call_tools : Option (List Tool)) (call_streaming_callback : Option Callback)
    (requires_async : Bool) :
    (effectiveTools self_tools call_tools ≠ [] →
      self_streaming_callback.isSome = true →
      runValidation self_tools self_streaming_callback call_tools
        call_streaming_callback requires_async = .error .toolsWithStreaming) ∧
    (self_streaming_callback = none →
      _check_duplicate_tool_names (effectiveTools self_tools call_tools) = true →
      runValidation self_tools self_streaming_callback call_tools
        call_streaming_callback requires_async = .error .duplicateToolNames) ∧
    (self_tools ≠ [] → self_streaming_callback.isSome = true →
      initValidation self_tools self_streaming_callback =
        some .toolsWithStreaming) ∧
    (self_streaming_callback = none →
      _check_duplicate_tool_names self_tools = true →
      initValidation self_tools self_streaming_callback =
        some .duplicateToolNames) := by
  refine ⟨?_, ?_, ?_, ?_⟩
  · intro htools hcb
    unfold runValidation
    rw [if_pos]
    rw [Bool.and_eq_true, Bool.not_eq_true', List.isEmpty_eq_false]
    exact ⟨htools, hcb⟩
  · intro hcb hdup
    subst hcb
    unfold runValidation
    rw [if_neg (by simp), if_pos hdup]
  · intro htools hcb
    unfold initValidation
    rw [if_pos]
    rw [Bool.and_eq_true, Bool.not_eq_true', List.isEmpty_eq_false]
    exact ⟨htools, hcb⟩
  · intro hcb hdup
    subst hcb
    unfold initValidation
    rw [if_neg (by simp), if_pos hdup]

/-- C4, witness: duplicates with no conflicting callback yield the
duplicate-name error; duplicates plus an instance callback yield the
conflict error. -/
theorem validation_conflict_checked_first_witness :
    runValidation [⟨"a"⟩, ⟨"a"⟩] none none none false =
      .error .duplicateToolNames ∧
    initValidation [⟨"a"⟩, ⟨"a"⟩] (some ⟨false⟩) = some .toolsWithStreaming :=
  ⟨(validation_conflict_checked_first [⟨"a"⟩, ⟨"a"⟩] none none none false).2.1
     rfl rfl,
   (validation_conflict_checked_first [⟨"a"⟩, ⟨"a"⟩] (some ⟨false⟩) none none
     false).2.2.1 (by decide) rfl⟩

/-- C6: a finished streaming turn folds to exactly one message whose text is
the ordered concatenation of the produced chunk contents; when no chunk of
the turn carried a usage object, the final message's usage metadata is
defaulted to `\x7bprompt_tokens: 0, completion_tokens: 0\x7d`; the async path
computes the same result as the sync path.  (The fold
`_convert_streaming_chunks_to_chat_message` is modelled from the spec, §4.4;
the loop, the zero-usage default and the `replies` shape are from the
source.) -/
theorem streaming_turn_folds_to_single_message
    (now : String) (component_info : Option ComponentInfo)
    (events : List ChatCompletionStreamOutput) :
    (_run_streaming now component_info events).replies.length = 1 ∧
    (_run_streaming now component_info events).replies.map (fun m => m.text) =
      [some (String.join ((streamLoop now component_info [] events).map
        fun c => c.content))] ∧
    (((streamLoop now component_info [] events).all
        fun c => (chunkUsage c).isNone) = true →
      (_run_streaming now component_info events).replies.map
        (fun m => m.meta.usage) = [some ⟨0, 0⟩]) ∧
    _run_streaming_async now component_info events =
      _run_streaming now component_info events := by
  refine ⟨rfl, ?_, ?_, rfl⟩
  · simp only [_run_streaming, _convert_streaming_chunks_to_chat_message,
      List.map_cons, List.map_nil]
    split <;> rfl
  · intro h
    have hfm : (streamLoop now component_info [] events).filterMap chunkUsage = [] :=
      filterMap_of_all_isNone _ _ h
    simp only [_run_streaming, _convert_streaming_chunks_to_chat_message, hfm]
    rfl

/-- C6, witness: a two-chunk turn with contents `"Hel"` and `"lo"` and no
usage anywhere folds to one message with text `"Hello"` and zero usage. -/
theorem streaming_turn_folds_witness :
    ((streamLoop "t" none []
        [⟨[⟨⟨some "Hel", none, none⟩, none⟩], "m", none⟩,
         ⟨[⟨⟨some "lo", none, none⟩, some "eos_token"⟩], "m", none⟩]).all
      fun c => (chunkUsage c).isNone) = true ∧
    (_run_streaming "t" none
        [⟨[⟨⟨some "Hel", none, none⟩, none⟩], "m", none⟩,
         ⟨[⟨⟨some "lo", none, none⟩, some "eos_token"⟩], "m", none⟩]).replies.map
      (fun m => m.meta.usage) = [some ⟨0, 0⟩] ∧
    (_run_streaming "t" none
        [⟨[⟨⟨some "Hel", none, none⟩, none⟩], "m", none⟩,
         ⟨[⟨⟨some "lo", none, none⟩, some "eos_token"⟩], "m", none⟩]).replies.map
      (fun m => m.text) = [some "Hello"] :=
  ⟨rfl,
   (streaming_turn_folds_to_single_message "t" none
      [⟨[⟨⟨some "Hel", none, none⟩, none⟩], "m", none⟩,
       ⟨[⟨⟨some "lo", none, none⟩, some "eos_token"⟩], "m", none⟩]).2.2.1 rfl,
   ((streaming_turn_folds_to_single_message "t" none
      [⟨[⟨⟨some "Hel", none, none⟩, none⟩], "m", none⟩,
       ⟨[⟨⟨some "lo", none, none⟩, some "eos_token"⟩], "m", none⟩]).2.1).trans
     (by rfl)⟩

/-- C10: when the constructor's `generation_kwargs` omit `max_tokens`, the
stored generation parameters hold `max_tokens = 512`, and the merged
parameters each `run`/`run_async` call sends to the vendor hold
`max_tokens = 512` unless the per-call override supplies a value, in which
case that value wins.  (The source copies the caller's mapping before the
insertion — `generation_kwargs.copy()` — which the pure embedding reflects
by construction: `initGenerationKwargs` computes a new dictionary and its
argument is untouched.) -/
theorem default_max_tokens_512
    (generation_kwargs : Option GenDict) (stop_words : Option (List String))
    (runtime : Option GenDict)
    (h : dictGet (generation_kwargs.getD []) "max_tokens" = none) :
    dictGet (initGenerationKwargs generation_kwargs stop_words) "max_tokens" =
      some (.nat 512) ∧
    (dictGet (runtime.getD []) "max_tokens" = none →
      dictGet (mergeGenerationKwargs
          (initGenerationKwargs generation_kwargs stop_words) runtime)
        "max_tokens" = some (.nat 512)) ∧
    (∀ v, dictGet (runtime.getD []) "max_tokens" = some v →
      dictGet (mergeGenerationKwargs
          (initGenerationKwargs generation_kwargs stop_words) runtime)
        "max_tokens" = some v) := by
  have hstored :
      dictGet (initGenerationKwargs generation_kwargs stop_words) "max_tokens" =
        some (.nat 512) := by
    unfold initGenerationKwargs
    apply dictGet_dictSetdefault_of_none
    rw [dictGet_dictSet_ne _ _ _ _ (by decide)]
    exact h
  refine ⟨hstored, ?_, ?_⟩
  · intro hrt
    rw [dictGet_merge, hrt, hstored]
  · intro v hrt
    rw [dictGet_merge, hrt]

/-- C10, witness: a constructor call omitting `max_tokens` stores 512; a
per-call override of 20 wins in the merged parameters. -/
theorem default_max_tokens_512_witness :
    dictGet ((some [("temperature", GenVal.other "t")] :
        Option GenDict).getD []) "max_tokens" = none ∧
    dictGet (initGenerationKwargs (some [("temperature", GenVal.other "t")])
      (some ["stop1"])) "max_tokens" = some (.nat 512) ∧
    dictGet (mergeGenerationKwargs
        (initGenerationKwargs (some [("temperature", GenVal.other "t")])
          (some ["stop1"]))
        (some [("max_tokens", GenVal.nat 20)])) "max_tokens" =
      some (.nat 20) :=
  ⟨rfl,
   (default_max_tokens_512 (some [("temperature", GenVal.other "t")])
     (some ["stop1"]) (some [("max_tokens", GenVal.nat 20)]) rfl).1,
   (default_max_tokens_512 (some [("temperature", GenVal.other "t")])
     (some ["stop1"]) (some [("max_tokens", GenVal.nat 20)]) rfl).2.2
     (GenVal.nat 20) rfl⟩

end HFChat
